import Mathlib

/-!
Shallow embedding of the Indicator Engine of `src/preprocess.py`
(`preprocess_sbp_data`, its helper `get_col` and the local classifier
`classify_roe`).

Modelling choices:
* A raw record is one long-format row of the input spreadsheet after the
  numeric coercion of the `Valor` column (`pd.to_numeric(..., errors="coerce")`):
  a value that does not parse is `none`.
* Machine floats are modelled by `ℚ`; pandas `NaN` (an undefined ratio) is
  modelled by `Option ℚ` with `none` for `NaN`.
* The pandas pivot (`pivot_table(..., aggfunc="sum")`) becomes `pivot_cell`:
  for a period key and a (category, indicator) pair it returns `none` when no
  record matches (an empty cell) and otherwise the sum of the non-null values
  of the matching records (pandas' sum skips nulls).  `get_col` applies the
  `fillna(0)` / missing-column defaulting of the source: an empty cell reads
  as `0`.
* `Series.quantile` with linear interpolation is modelled by `quantile`:
  sort, take the fractional index `p * (n - 1)` and interpolate linearly
  between the two neighbouring order statistics.
-/

structure RawRecord where
  subgrupo : String
  categoria : String
  indicador : String
  anio : Int
  mes : Int
  valor : Option ℚ
deriving DecidableEq

/-- The grain of the pivoted table: (Subgrupo, Año, Mes). -/
abbrev PeriodKey := String × Int × Int

def rkey (r : RawRecord) : PeriodKey := (r.subgrupo, r.anio, r.mes)

/-- Index of the pivoted table: each distinct period key of the input, once. -/
def pkeys (records : List RawRecord) : List PeriodKey :=
  (records.map rkey).dedup

def matchesCell (k : PeriodKey) (c i : String) (r : RawRecord) : Bool :=
  rkey r == k && r.categoria == c && r.indicador == i

/-- One cell of `pivot_table(index=[Subgrupo, Año, Mes], columns=[Categoría,
Indicador], values="Valor", aggfunc="sum")`: `none` when no record of the
period carries the (category, indicator) pair, otherwise the sum of the
non-null values of the matching records. -/
def pivot_cell (records : List RawRecord) (k : PeriodKey) (c i : String) : Option ℚ :=
  let matching := records.filter (matchesCell k c i)
  if matching.isEmpty then none
  else some ((matching.filterMap RawRecord.valor).sum)

/-- The accessor `get_col` of the source: read a pivot cell, defaulting an absent column or
an empty cell to `0` (`fillna(0)` / the all-zero fallback series). -/
def get_col (records : List RawRecord) (k : PeriodKey) (c i : String) : ℚ :=
  (pivot_cell records k c i).getD 0

def net_income (records : List RawRecord) (k : PeriodKey) : ℚ :=
  get_col records k ("Patrimonio") ("Utilidad De Periodo")

def total_assets (records : List RawRecord) (k : PeriodKey) : ℚ :=
  get_col records k ("Patrimonio") ("Pasivo Y Patrimonio")

def capital (records : List RawRecord) (k : PeriodKey) : ℚ :=
  get_col records k ("Patrimonio") ("Capital")

def other_reserves (records : List RawRecord) (k : PeriodKey) : ℚ :=
  get_col records k ("Patrimonio") ("Otras Reservas")

def previous_net_income (records : List RawRecord) (k : PeriodKey) : ℚ :=
  get_col records k ("Patrimonio") ("Utilidad De Periodos Anteriores")

def market_value_gain (records : List RawRecord) (k : PeriodKey) : ℚ :=
  get_col records k ("Patrimonio") ("Ganancia O Perdida En Valores Disponible Para La Venta")

/-- Source line 42: `equity = capital + other_reserves + previous_net_income +
market_value_gain + net_income`. -/
def equity (records : List RawRecord) (k : PeriodKey) : ℚ :=
  capital records k + other_reserves records k + previous_net_income records k +
    market_value_gain records k + net_income records k

/-- Source line 44, `roa = net_income / total_assets.replace(0 with nan)`:
`none` exactly when the denominator is `0`. -/
def roa (records : List RawRecord) (k : PeriodKey) : Option ℚ :=
  if total_assets records k = 0 then none
  else some (net_income records k / total_assets records k)

/-- Source line 45, `leverage = total_assets / equity.replace(0 with nan)`. -/
def leverage (records : List RawRecord) (k : PeriodKey) : Option ℚ :=
  if equity records k = 0 then none
  else some (total_assets records k / equity records k)

/-- Source line 46, `roe = roa * leverage`; a product with `NaN` is `NaN`. -/
def roe (records : List RawRecord) (k : PeriodKey) : Option ℚ :=
  match roa records k, leverage records k with
  | some a, some l => some (a * l)
  | _, _ => none

/-- Source line 49, `temp_roe = roe.dropna()`: the non-null ROE values of the run, one entry
per period key of the pivot index. -/
def roeValues (records : List RawRecord) : List ℚ :=
  (pkeys records).filterMap (fun k => roe records k)

/-- Linear interpolation at fractional index `h` inside a list of order
statistics (numpy / pandas `interpolation="linear"`). -/
def interp (s : List ℚ) (h : ℚ) : ℚ :=
  let i : ℕ := ⌊h⌋.toNat
  let lo := s.getD i 0
  let hi := s.getD (min (i + 1) (s.length - 1)) 0
  lo + (h - (i : ℚ)) * (hi - lo)

/-- Model of `Series.quantile(p)` with the default linear interpolation: sort the
values and interpolate at fractional index `p * (n - 1)`. -/
def quantile (xs : List ℚ) (p : ℚ) : ℚ :=
  let s := xs.insertionSort (· ≤ ·)
  if s.isEmpty then 0 else interp s (p * ((s.length : ℚ) - 1))

/-- Lines 49–53 of the source: the 33rd/66th percentile thresholds of the
non-null ROE values, both defaulting to `0` when there are fewer than 3. -/
def thresholds (records : List RawRecord) : ℚ × ℚ :=
  let t := roeValues records
  if 2 < t.length then (quantile t (33/100), quantile t (66/100)) else (0, 0)

/-- The classifier `classify_roe` of the source (lines 55–63), with the captured thresholds
made explicit arguments. -/
def classify_roe (q33 q66 : ℚ) (x : Option ℚ) : String :=
  match x with
  | none => ("Unknown")
  | some v =>
    if v ≤ q33 then ("Low performance")
    else if v ≤ q66 then ("Medium performance")
    else ("High performance")

/-- Source line 65, `classification = roe.apply(classify_roe)`. -/
def classification (records : List RawRecord) (k : PeriodKey) : String :=
  classify_roe (thresholds records).1 (thresholds records).2 (roe records k)

/-- Model of `pivoted[c].sum(axis=1)` with the absent-category fallback: the sum of all
non-null values of the category for the period, `0` when none exist. -/
def catSum (records : List RawRecord) (k : PeriodKey) (c : String) : ℚ :=
  ((records.filter (fun r => rkey r == k && r.categoria == c)).filterMap RawRecord.valor).sum

def total_activos_liquidos (records : List RawRecord) (k : PeriodKey) : ℚ :=
  catSum records k ("Activos Liquidos")

def total_deposits (records : List RawRecord) (k : PeriodKey) : ℚ :=
  catSum records k ("Depositos")

def liquidity_ratio (records : List RawRecord) (k : PeriodKey) : Option ℚ :=
  if total_deposits records k = 0 then none
  else some (total_activos_liquidos records k / total_deposits records k)

def deposit_diversity (records : List RawRecord) (k : PeriodKey) : Option ℚ :=
  let b := get_col records k ("Depositos") ("De Bancos")
  if b = 0 then none else some (get_col records k ("Depositos") ("De Particulares") / b)

def deposit_view_to_plazo (records : List RawRecord) (k : PeriodKey) : Option ℚ :=
  let p := get_col records k ("Depositos") ("A Plazo")
  if p = 0 then none else some (get_col records k ("Depositos") ("A La Vista") / p)

def coverage_ratio (records : List RawRecord) (k : PeriodKey) : Option ℚ :=
  let t := get_col records k ("Cartera Crediticia") ("Locales") +
    get_col records k ("Cartera Crediticia") ("Extranjero")
  if t = 0 then none else some (get_col records k ("Cartera Crediticia") ("Menos Provisiones") / t)

def leverage_ratio_extra (records : List RawRecord) (k : PeriodKey) : Option ℚ :=
  let o := get_col records k ("Obligaciones") ("Locales") +
    get_col records k ("Obligaciones") ("Extranjero") +
    get_col records k ("Otros Pasivos") ("Locales") +
    get_col records k ("Otros Pasivos") ("Extranjero")
  if equity records k = 0 then none else some (o / equity records k)

def capitalization_ratio (records : List RawRecord) (k : PeriodKey) : Option ℚ :=
  if total_assets records k = 0 then none
  else some (equity records k / total_assets records k)

/-- Source line 118, `np.where(denom_adjusted != 0, roe * (credit_locales /
denom_adjusted), nan)`: `none` when the denominator is `0`, and a product with a `NaN`
ROE is `NaN`. -/
def adjusted_ROE (records : List RawRecord) (k : PeriodKey) : Option ℚ :=
  let cl := get_col records k ("Cartera Crediticia") ("Locales")
  let denom := cl - get_col records k ("Cartera Crediticia") ("Menos Provisiones Locales")
  if denom = 0 then none
  else (roe records k).map (fun x => x * (cl / denom))

/-- One row of the result `DataFrame` (lines 122–140). -/
structure Row where
  bank : String
  year : Int
  month : Int
  net_income : ℚ
  total_assets : ℚ
  equity : ℚ
  roa : Option ℚ
  leverage : Option ℚ
  roe : Option ℚ
  classification : String
  liquidity_ratio : Option ℚ
  deposit_diversity : Option ℚ
  deposit_view_to_plazo : Option ℚ
  coverage_ratio : Option ℚ
  leverage_ratio_extra : Option ℚ
  capitalization_ratio : Option ℚ
  adjusted_ROE : Option ℚ
deriving DecidableEq

def mkRow (records : List RawRecord) (k : PeriodKey) : Row where
  bank := k.1
  year := k.2.1
  month := k.2.2
  net_income := net_income records k
  total_assets := total_assets records k
  equity := equity records k
  roa := roa records k
  leverage := leverage records k
  roe := roe records k
  classification := classification records k
  liquidity_ratio := liquidity_ratio records k
  deposit_diversity := deposit_diversity records k
  deposit_view_to_plazo := deposit_view_to_plazo records k
  coverage_ratio := coverage_ratio records k
  leverage_ratio_extra := leverage_ratio_extra records k
  capitalization_ratio := capitalization_ratio records k
  adjusted_ROE := adjusted_ROE records k

/-- The Indicator Engine: one output row per period key of the pivot index. -/
def preprocess_sbp_data (records : List RawRecord) : List Row :=
  (pkeys records).map (fun k => mkRow records k)

/-- Rank of a classification label in the ordering
Low performance < Medium performance < High performance. -/
def labelRank : String → ℕ
  | "Low performance" => 0
  | "Medium performance" => 1
  | "High performance" => 2
  | _ => 3

/-- A dataset whose pivot has two period keys, both with a defined ROE:
key ("A", 2023, 1) has net income 1, total assets 20, equity 19 + 1 = 20,
hence ROE = 1/20; key ("B", 2023, 1) has ROE = 1/2.  With only two non-null
ROE values the classification thresholds default to (0, 0). -/
def exA : List RawRecord :=
  [⟨"A", "Patrimonio", "Utilidad De Periodo", 2023, 1, some 1⟩,
   ⟨"A", "Patrimonio", "Pasivo Y Patrimonio", 2023, 1, some 20⟩,
   ⟨"A", "Patrimonio", "Capital", 2023, 1, some 19⟩,
   ⟨"B", "Patrimonio", "Utilidad De Periodo", 2023, 1, some 1⟩,
   ⟨"B", "Patrimonio", "Pasivo Y Patrimonio", 2023, 1, some 2⟩,
   ⟨"B", "Patrimonio", "Capital", 2023, 1, some 1⟩]

/-- A dataset with a zero-assets period ("Z", 2024, 2) and a zero-equity
period ("W", 2024, 2); the "W" period also carries a credit portfolio, so its
adjusted-ROE denominator is non-zero while its ROE is undefined. -/
def exC : List RawRecord :=
  [⟨"Z", "Patrimonio", "Utilidad De Periodo", 2024, 2, some 5⟩,
   ⟨"W", "Patrimonio", "Pasivo Y Patrimonio", 2024, 2, some 10⟩,
   ⟨"W", "Cartera Crediticia", "Locales", 2024, 2, some 10⟩]

lemma labelRank_low : labelRank ("Low performance") = 0 := rfl

lemma labelRank_medium : labelRank ("Medium performance") = 1 := rfl

lemma labelRank_high : labelRank ("High performance") = 2 := rfl

lemma mem_preprocess {records : List RawRecord} {row : Row} :
    row ∈ preprocess_sbp_data records ↔ ∃ k, k ∈ pkeys records ∧ mkRow records k = row := by
  simp [preprocess_sbp_data]

lemma sorted_getD_mono {s : List ℚ} (hs : s.Sorted (· ≤ ·)) {a b : ℕ}
    (hab : a ≤ b) (hb : b < s.length) : s.getD a 0 ≤ s.getD b 0 := by
  have ha : a < s.length := Nat.lt_of_le_of_lt hab hb
  rw [List.getD_eq_getElem s 0 ha, List.getD_eq_getElem s 0 hb]
  rcases Nat.lt_or_ge a b with h | h
  · have := hs.rel_get_of_lt (a := ⟨a, ha⟩) (b := ⟨b, hb⟩) h
    simpa using this
  · have hab' : a = b := le_antisymm hab h
    subst hab'
    exact le_refl _

lemma floor_toNat_le {h : ℚ} {n : ℕ} (h0 : 0 ≤ h) (htop : h ≤ (n : ℚ) - 1) :
    ⌊h⌋.toNat ≤ n - 1 ∧ 1 ≤ n ∧ ((⌊h⌋.toNat : ℚ) = ⌊h⌋) := by
  have hn1 : (1 : ℚ) ≤ (n : ℚ) := by linarith
  have hn : 1 ≤ n := by exact_mod_cast hn1
  have hfl : ⌊h⌋ ≤ (n : ℤ) - 1 := by
    have h' : h ≤ (((n : ℤ) - 1 : ℤ) : ℚ) := by push_cast; linarith
    have := Int.floor_le_floor h'
    rwa [Int.floor_intCast] at this
  have hge : 0 ≤ ⌊h⌋ := Int.floor_nonneg.mpr h0
  refine ⟨by omega, hn, ?_⟩
  exact_mod_cast congrArg (fun z : ℤ => (z : ℚ)) (Int.toNat_of_nonneg hge)

lemma interp_bounds {s : List ℚ} (hs : s.Sorted (· ≤ ·)) {h : ℚ}
    (h0 : 0 ≤ h) (htop : h ≤ (s.length : ℚ) - 1) :
    s.getD (⌊h⌋.toNat) 0 ≤ interp s h ∧
      interp s h ≤ s.getD (min (⌊h⌋.toNat + 1) (s.length - 1)) 0 := by
  obtain ⟨hile, hn, hcast⟩ := floor_toNat_le h0 htop
  set n := s.length with hn_def
  set i := ⌊h⌋.toNat with hi_def
  set j := min (i + 1) (n - 1) with hj_def
  have hij : i ≤ j := by omega
  have hjn : j < n := by omega
  have hd : 0 ≤ s.getD j 0 - s.getD i 0 := by
    have := sorted_getD_mono hs hij hjn
    linarith
  have hfrac0 : 0 ≤ h - (i : ℚ) := by
    have := Int.floor_le h
    rw [← hcast] at this
    linarith
  have hfrac1 : h - (i : ℚ) ≤ 1 := by
    have := Int.lt_floor_add_one h
    rw [← hcast] at this
    linarith
  constructor
  · have : 0 ≤ (h - (i : ℚ)) * (s.getD j 0 - s.getD i 0) := mul_nonneg hfrac0 hd
    simp only [interp]
    linarith
  · have : (h - (i : ℚ)) * (s.getD j 0 - s.getD i 0) ≤ s.getD j 0 - s.getD i 0 :=
      mul_le_of_le_one_left hd hfrac1
    simp only [interp]
    linarith

lemma quantile_mono (xs : List ℚ) {p q : ℚ} (hp : 0 ≤ p) (hq : q ≤ 1)
    (hpq : p ≤ q) : quantile xs p ≤ quantile xs q := by
  unfold quantile
  set s := xs.insertionSort (· ≤ ·) with hs_def
  have hs : s.Sorted (· ≤ ·) := List.sorted_insertionSort (· ≤ ·) xs
  by_cases hemp : s.isEmpty
  · simp [hemp]
  · simp only [hemp, if_false]
    set n := s.length with hn_def
    have hn1 : 1 ≤ n := by
      rcases s with _ | ⟨a, t⟩
      · simp at hemp
      · simp [hn_def]
    have hnq : (0 : ℚ) ≤ (n : ℚ) - 1 := by
      have : (1 : ℚ) ≤ (n : ℚ) := by exact_mod_cast hn1
      linarith
    set h₁ := p * ((n : ℚ) - 1) with h1_def
    set h₂ := q * ((n : ℚ) - 1) with h2_def
    have hh : h₁ ≤ h₂ := mul_le_mul_of_nonneg_right hpq hnq
    have h10 : 0 ≤ h₁ := mul_nonneg hp hnq
    have h2top : h₂ ≤ (n : ℚ) - 1 := by
      have := mul_le_of_le_one_left hnq hq
      simpa [h2_def] using this
    have h1top : h₁ ≤ (n : ℚ) - 1 := le_trans hh h2top
    have h20 : 0 ≤ h₂ := le_trans h10 hh
    obtain ⟨hi1le, -, hc1⟩ := floor_toNat_le h10 h1top
    obtain ⟨hi2le, -, hc2⟩ := floor_toNat_le h20 h2top
    have hii : ⌊h₁⌋.toNat ≤ ⌊h₂⌋.toNat := by
      have := Int.floor_le_floor hh
      omega
    obtain ⟨hlow1, hup1⟩ := interp_bounds hs h10 h1top
    obtain ⟨hlow2, hup2⟩ := interp_bounds hs h20 h2top
    rcases Nat.lt_or_ge (⌊h₁⌋.toNat) (⌊h₂⌋.toNat) with hlt | hge
    · have hj1 : min (⌊h₁⌋.toNat + 1) (n - 1) ≤ ⌊h₂⌋.toNat := by omega
      have hmid : s.getD (min (⌊h₁⌋.toNat + 1) (n - 1)) 0 ≤ s.getD (⌊h₂⌋.toNat) 0 := by
        apply sorted_getD_mono hs hj1
        omega
      exact le_trans hup1 (le_trans hmid hlow2)
    · have heq : ⌊h₁⌋.toNat = ⌊h₂⌋.toNat := le_antisymm hii hge
      simp only [interp, ← hn_def, heq, Bool.false_eq_true, if_false]
      have hd : 0 ≤ s.getD (min (⌊h₂⌋.toNat + 1) (n - 1)) 0 - s.getD (⌊h₂⌋.toNat) 0 := by
        have : s.getD (⌊h₂⌋.toNat) 0 ≤ s.getD (min (⌊h₂⌋.toNat + 1) (n - 1)) 0 := by
          apply sorted_getD_mono hs (by omega)
          omega
        linarith
      have := mul_le_mul_of_nonneg_right (sub_le_sub_right hh ((⌊h₂⌋.toNat : ℚ))) hd
      linarith

lemma thresholds_fst_le_snd (records : List RawRecord) :
    (thresholds records).1 ≤ (thresholds records).2 := by
  by_cases h : 2 < (roeValues records).length
  · simp only [thresholds, h, if_true]
    exact quantile_mono _ (by norm_num) (by norm_num) (by norm_num)
  · simp [thresholds, h]

lemma thresholds_default (records : List RawRecord)
    (hlen : (roeValues records).length < 3) : thresholds records = (0, 0) := by
  have h : ¬ 2 < (roeValues records).length := by omega
  simp [thresholds, h]

lemma exA_pkeys : pkeys exA = [("A", 2023, 1), ("B", 2023, 1)] := by
  simp +decide [pkeys, exA, rkey]

lemma exA_roe_A : roe exA ("A", 2023, 1) = some (1/20) := by
  simp +decide [roe, roa, leverage, net_income, total_assets, equity, capital, other_reserves,
    previous_net_income, market_value_gain, get_col, pivot_cell, exA, matchesCell, rkey,
    List.filter_cons]
  norm_num

lemma exA_roe_B : roe exA ("B", 2023, 1) = some (1/2) := by
  simp +decide [roe, roa, leverage, net_income, total_assets, equity, capital, other_reserves,
    previous_net_income, market_value_gain, get_col, pivot_cell, exA, matchesCell, rkey,
    List.filter_cons]
  norm_num

lemma exA_total_assets_A : total_assets exA ("A", 2023, 1) = 20 := by
  simp +decide [total_assets, get_col, pivot_cell, exA, matchesCell, rkey, List.filter_cons]

lemma exA_equity_A : equity exA ("A", 2023, 1) = 20 := by
  simp +decide [equity, capital, other_reserves, previous_net_income, market_value_gain,
    net_income, get_col, pivot_cell, exA, matchesCell, rkey, List.filter_cons]
  norm_num

lemma exA_net_income_A : net_income exA ("A", 2023, 1) = 1 := by
  simp +decide [net_income, get_col, pivot_cell, exA, matchesCell, rkey, List.filter_cons]

lemma exA_roeValues : roeValues exA = [1/20, 1/2] := by
  rw [roeValues, exA_pkeys]
  simp [exA_roe_A, exA_roe_B]

lemma exA_roeValues_length : (roeValues exA).length = 2 := by
  rw [exA_roeValues]
  rfl

lemma exA_thresholds : thresholds exA = (0, 0) := by
  rw [thresholds, exA_roeValues]
  norm_num

lemma exA_mem_A : mkRow exA ("A", 2023, 1) ∈ preprocess_sbp_data exA := by
  rw [preprocess_sbp_data, exA_pkeys]
  simp

lemma exA_mem_B : mkRow exA ("B", 2023, 1) ∈ preprocess_sbp_data exA := by
  rw [preprocess_sbp_data, exA_pkeys]
  simp

lemma exC_pkeys : pkeys exC = [("Z", 2024, 2), ("W", 2024, 2)] := by
  simp +decide [pkeys, exC, rkey]

lemma exC_mem_Z : mkRow exC ("Z", 2024, 2) ∈ preprocess_sbp_data exC := by
  rw [preprocess_sbp_data, exC_pkeys]
  simp

lemma exC_mem_W : mkRow exC ("W", 2024, 2) ∈ preprocess_sbp_data exC := by
  rw [preprocess_sbp_data, exC_pkeys]
  simp

lemma exC_total_assets_Z : total_assets exC ("Z", 2024, 2) = 0 := by
  simp +decide [total_assets, get_col, pivot_cell, exC, matchesCell, rkey, List.filter_cons]

lemma exC_equity_W : equity exC ("W", 2024, 2) = 0 := by
  simp +decide [equity, capital, other_reserves, previous_net_income, market_value_gain,
    net_income, get_col, pivot_cell, exC, matchesCell, rkey, List.filter_cons]

lemma exC_roe_W : roe exC ("W", 2024, 2) = none := by
  simp [roe, leverage, exC_equity_W]

lemma classify_roe_spec {q33 q66 : ℚ} (hq : q33 ≤ q66) (x : Option ℚ) :
    (classify_roe q33 q66 x = "Unknown" ↔ x = none) ∧
    (∀ v, x = some v →
      ((classify_roe q33 q66 x = "Low performance" ↔ v ≤ q33) ∧
       (classify_roe q33 q66 x = "Medium performance" ↔ q33 < v ∧ v ≤ q66) ∧
       (classify_roe q33 q66 x = "High performance" ↔ q66 < v))) ∧
    (classify_roe q33 q66 x = "Unknown" ∨ classify_roe q33 q66 x = "Low performance" ∨
      classify_roe q33 q66 x = "Medium performance" ∨
      classify_roe q33 q66 x = "High performance") := by
  cases x with
  | none =>
    refine ⟨iff_of_true rfl rfl, ?_, Or.inl rfl⟩
    intro v hv
    cases hv
  | some v =>
    refine ⟨?_, ?_, ?_⟩
    · refine iff_of_false ?_ (by simp)
      simp only [classify_roe]
      split_ifs <;> decide
    · intro w hw
      have hwv : w = v := by
        injection hw with h
        exact h.symm
      subst hwv
      simp only [classify_roe]
      split_ifs with h1 h2
      · exact ⟨iff_of_true rfl h1,
          iff_of_false (by decide) (fun hc => absurd h1 (not_le.mpr hc.1)),
          iff_of_false (by decide) (not_lt.mpr (le_trans h1 hq))⟩
      · push_neg at h1
        exact ⟨iff_of_false (by decide) (not_le.mpr h1),
          iff_of_true rfl ⟨h1, h2⟩,
          iff_of_false (by decide) (not_lt.mpr h2)⟩
      · push_neg at h1 h2
        exact ⟨iff_of_false (by decide) (not_le.mpr h1),
          iff_of_false (by decide) (fun hc => absurd hc.2 (not_le.mpr h2)),
          iff_of_true rfl h2⟩
    · simp only [classify_roe]
      split_ifs
      · exact Or.inr (Or.inl rfl)
      · exact Or.inr (Or.inr (Or.inl rfl))
      · exact Or.inr (Or.inr (Or.inr rfl))

lemma classify_roe_rank_mono {q33 q66 va vb : ℚ} (hlt : va < vb) :
    labelRank (classify_roe q33 q66 (some va)) ≤
      labelRank (classify_roe q33 q66 (some vb)) := by
  simp only [classify_roe]
  split_ifs with h1 h2 h3 h4 h5 h6 h7 <;>
    simp only [labelRank_low, labelRank_medium, labelRank_high] <;>
    first
      | omega
      | (exfalso; push_neg at *; linarith)

/-- C1: every output row's label is `classify_roe` of its ROE against the
dataset-wide thresholds: the thresholds default to `(0, 0)` when fewer than 3
non-null ROE values exist, null ROE reads "Unknown", `ROE ≤ p33` reads
"Low performance", `p33 < ROE ≤ p66` reads "Medium performance", `ROE > p66`
reads "High performance" (ties fall into the lower bucket), and no label
outside these four ever occurs. -/
theorem classify_matches_thresholds (records : List RawRecord) (row : Row)
    (hrow : row ∈ preprocess_sbp_data records) :
    ((roeValues records).length < 3 → thresholds records = (0, 0)) ∧
    (row.classification = "Unknown" ↔ row.roe = none) ∧
    (∀ v : ℚ, row.roe = some v →
      ((row.classification = "Low performance" ↔ v ≤ (thresholds records).1) ∧
       (row.classification = "Medium performance" ↔
         (thresholds records).1 < v ∧ v ≤ (thresholds records).2) ∧
       (row.classification = "High performance" ↔ (thresholds records).2 < v))) ∧
    (row.classification = "Unknown" ∨ row.classification = "Low performance" ∨
      row.classification = "Medium performance" ∨
      row.classification = "High performance") := by
  obtain ⟨k, hk, rfl⟩ := mem_preprocess.mp hrow
  have h := classify_roe_spec (thresholds_fst_le_snd records) (roe records k)
  exact ⟨fun hlen => thresholds_default records hlen, h.1, h.2.1, h.2.2⟩

/-- C1 witness: on `exA` the row of key ("A", 2023, 1) carries ROE 1/20 above
both (defaulted) thresholds, so the theorem classifies it "High performance". -/
theorem classify_matches_thresholds_witness :
    (mkRow exA ("A", 2023, 1)).classification = "High performance" := by
  have h := classify_matches_thresholds exA (mkRow exA ("A", 2023, 1)) exA_mem_A
  apply ((h.2.2.1 (1/20) exA_roe_A).2.2).mpr
  rw [exA_thresholds]
  norm_num

/-- C7: for two output rows of the same run with non-null ROE, a strictly
smaller ROE never receives a strictly higher label in the ordering
Low performance < Medium performance < High performance. -/
theorem classification_monotone_in_roe (records : List RawRecord) (a b : Row)
    (ha : a ∈ preprocess_sbp_data records) (hb : b ∈ preprocess_sbp_data records)
    {va vb : ℚ} (hva : a.roe = some va) (hvb : b.roe = some vb) (hlt : va < vb) :
    labelRank a.classification ≤ labelRank b.classification := by
  obtain ⟨ka, hka, rfl⟩ := mem_preprocess.mp ha
  obtain ⟨kb, hkb, rfl⟩ := mem_preprocess.mp hb
  have ha' : roe records ka = some va := hva
  have hb' : roe records kb = some vb := hvb
  show labelRank (classify_roe (thresholds records).1 (thresholds records).2 (roe records ka)) ≤
    labelRank (classify_roe (thresholds records).1 (thresholds records).2 (roe records kb))
  rw [ha', hb']
  exact classify_roe_rank_mono hlt

/-- C7 witness: on `exA`, the row with ROE 1/20 does not outrank the row with
ROE 1/2. -/
theorem classification_monotone_in_roe_witness :
    labelRank (mkRow exA ("A", 2023, 1)).classification ≤
      labelRank (mkRow exA ("B", 2023, 1)).classification :=
  classification_monotone_in_roe exA _ _ exA_mem_A exA_mem_B exA_roe_A exA_roe_B (by norm_num)

/-- C10: when the two thresholds coincide (in particular when both default to
0), no output row is labelled "Medium performance"; every row reads "Unknown",
"Low performance" or "High performance". -/
theorem equal_thresholds_no_medium (records : List RawRecord)
    (hth : (thresholds records).1 = (thresholds records).2) (row : Row)
    (hrow : row ∈ preprocess_sbp_data records) :
    row.classification ≠ "Medium performance" ∧
    (row.classification = "Unknown" ∨ row.classification = "Low performance" ∨
      row.classification = "High performance") := by
  obtain ⟨k, hk, rfl⟩ := mem_preprocess.mp hrow
  show classify_roe (thresholds records).1 (thresholds records).2 (roe records k) ≠
      "Medium performance" ∧
    (classify_roe (thresholds records).1 (thresholds records).2 (roe records k) = "Unknown" ∨
      classify_roe (thresholds records).1 (thresholds records).2 (roe records k) =
        "Low performance" ∨
      classify_roe (thresholds records).1 (thresholds records).2 (roe records k) =
        "High performance")
  rw [hth]
  cases roe records k with
  | none => exact ⟨by simp [classify_roe], Or.inl rfl⟩
  | some v =>
    simp only [classify_roe]
    split_ifs with h1
    · exact ⟨by decide, Or.inr (Or.inl rfl)⟩
    · exact ⟨by decide, Or.inr (Or.inr rfl)⟩

/-- C10 witness: on `exA` both thresholds are 0, and the ("A", 2023, 1) row is
not labelled "Medium performance". -/
theorem equal_thresholds_no_medium_witness :
    (mkRow exA ("A", 2023, 1)).classification ≠ "Medium performance" :=
  (equal_thresholds_no_medium exA (by rw [exA_thresholds]) _ exA_mem_A).1

/-- C2 counterexample: `exA` has exactly 2 non-null ROE values, so the
thresholds default to (0, 0); its ("A", 2023, 1) row has ROE 1/20 = 0.05 and
is classified "High performance", not "Medium performance" as the claim
states (with equal thresholds the medium bucket `0 < x ≤ 0` is empty). -/
theorem two_roe_medium_counterexample :
    (roeValues exA).length = 2 ∧
    thresholds exA = (0, 0) ∧
    mkRow exA ("A", 2023, 1) ∈ preprocess_sbp_data exA ∧
    (mkRow exA ("A", 2023, 1)).roe = some (1/20) ∧
    (mkRow exA ("A", 2023, 1)).classification = "High performance" ∧
    (mkRow exA ("A", 2023, 1)).classification ≠ "Medium performance" := by
  have hcl : (mkRow exA ("A", 2023, 1)).classification = "High performance" := by
    show classify_roe (thresholds exA).1 (thresholds exA).2 (roe exA ("A", 2023, 1)) = _
    rw [exA_thresholds, exA_roe_A]
    norm_num [classify_roe]
  refine ⟨exA_roeValues_length, exA_thresholds, exA_mem_A, exA_roe_A, hcl, ?_⟩
  rw [hcl]
  decide

/-- C2 as amended: with exactly 2 non-null ROE values the thresholds default
to (0, 0), and a row whose ROE equals 0.05 is classified "High performance"
(0.05 exceeds the upper threshold 0; the medium bucket `0 < x ≤ 0` is empty). -/
theorem two_roe_classifies_high (records : List RawRecord) (row : Row)
    (hrow : row ∈ preprocess_sbp_data records)
    (hlen : (roeValues records).length = 2) (hroe : row.roe = some (1/20)) :
    thresholds records = (0, 0) ∧ row.classification = "High performance" := by
  have hth : thresholds records = (0, 0) := thresholds_default records (by omega)
  obtain ⟨k, hk, rfl⟩ := mem_preprocess.mp hrow
  refine ⟨hth, ?_⟩
  have hroe' : roe records k = some (1/20) := hroe
  show classify_roe (thresholds records).1 (thresholds records).2 (roe records k) = _
  rw [hth, hroe']
  norm_num [classify_roe]

/-- C2 witness: the amended statement instantiated on `exA`. -/
theorem two_roe_classifies_high_witness :
    thresholds exA = (0, 0) ∧ (mkRow exA ("A", 2023, 1)).classification = "High performance" :=
  two_roe_classifies_high exA _ exA_mem_A exA_roeValues_length exA_roe_A

/-- C3: a zero total-assets row has null ROA, a zero equity row has null
Leverage, and ROE is null exactly when ROA or Leverage is (the embedding is a
total function, so no division-by-zero error can be raised, and a null is
never replaced by 0). -/
theorem ratio_null_denominator (records : List RawRecord) (row : Row)
    (hrow : row ∈ preprocess_sbp_data records) :
    (row.total_assets = 0 → row.roa = none) ∧
    (row.equity = 0 → row.leverage = none) ∧
    (row.roe = none ↔ row.roa = none ∨ row.leverage = none) := by
  obtain ⟨k, hk, rfl⟩ := mem_preprocess.mp hrow
  refine ⟨fun h => ?_, fun h => ?_, ?_⟩
  · have h' : total_assets records k = 0 := h
    show roa records k = none
    rw [roa, if_pos h']
  · have h' : equity records k = 0 := h
    show leverage records k = none
    rw [leverage, if_pos h']
  · show roe records k = none ↔ roa records k = none ∨ leverage records k = none
    cases hra : roa records k <;> cases hlv : leverage records k <;>
      simp [roe, hra, hlv]

/-- C3 witness: on `exC`, the zero-assets row ("Z", 2024, 2) has null ROA and
null ROE, and the zero-equity row ("W", 2024, 2) has null Leverage. -/
theorem ratio_null_denominator_witness :
    (mkRow exC ("Z", 2024, 2)).roa = none ∧ (mkRow exC ("W", 2024, 2)).leverage = none ∧
      (mkRow exC ("Z", 2024, 2)).roe = none := by
  have hZ := ratio_null_denominator exC _ exC_mem_Z
  have hW := ratio_null_denominator exC _ exC_mem_W
  have h1 : (mkRow exC ("Z", 2024, 2)).roa = none := hZ.1 exC_total_assets_Z
  exact ⟨h1, hW.2.1 exC_equity_W, hZ.2.2.mpr (Or.inl h1)⟩

/-- C4: every output row's equity is the sum of the five safe-got line items
capital, other reserves, previous-period net income, market-value adjustment
and current net income, in the order computed by the source. -/
theorem equity_is_five_term_sum (records : List RawRecord) (row : Row)
    (hrow : row ∈ preprocess_sbp_data records) :
    row.equity =
      get_col records (row.bank, row.year, row.month) ("Patrimonio") ("Capital") +
      get_col records (row.bank, row.year, row.month) ("Patrimonio") ("Otras Reservas") +
      get_col records (row.bank, row.year, row.month) ("Patrimonio")
        ("Utilidad De Periodos Anteriores") +
      get_col records (row.bank, row.year, row.month) ("Patrimonio")
        ("Ganancia O Perdida En Valores Disponible Para La Venta") +
      get_col records (row.bank, row.year, row.month) ("Patrimonio") ("Utilidad De Periodo") := by
  obtain ⟨k, hk, rfl⟩ := mem_preprocess.mp hrow
  rfl

/-- C4 witness: the five-term equity sum instantiated on `exA`'s
("A", 2023, 1) row. -/
theorem equity_is_five_term_sum_witness :
    (mkRow exA ("A", 2023, 1)).equity =
      get_col exA ("A", 2023, 1) ("Patrimonio") ("Capital") +
      get_col exA ("A", 2023, 1) ("Patrimonio") ("Otras Reservas") +
      get_col exA ("A", 2023, 1) ("Patrimonio") ("Utilidad De Periodos Anteriores") +
      get_col exA ("A", 2023, 1) ("Patrimonio")
        ("Ganancia O Perdida En Valores Disponible Para La Venta") +
      get_col exA ("A", 2023, 1) ("Patrimonio") ("Utilidad De Periodo") :=
  equity_is_five_term_sum exA _ exA_mem_A

lemma countP_eq_one_of_nodup {α : Type} [DecidableEq α] {l : List α} (hl : l.Nodup)
    {a : α} (ha : a ∈ l) : l.countP (fun x => decide (x = a)) = 1 := by
  induction l with
  | nil => cases ha
  | cons x xs ih =>
    rw [List.countP_cons]
    rcases List.mem_cons.mp ha with rfl | hmem
    · have hx : xs.countP (fun y => decide (y = a)) = 0 := by
        rw [List.countP_eq_zero]
        intro y hy
        have hne : y ≠ a := fun hc => (List.nodup_cons.mp hl).1 (hc ▸ hy)
        simp [hne]
      simp [hx]
    · have hx : x ≠ a := fun hc => (List.nodup_cons.mp hl).1 (hc ▸ hmem)
      have ih' := ih (List.nodup_cons.mp hl).2 hmem
      simp [hx, ih']

/-- C5: every period key occurring in the input yields exactly one output row
carrying that key, and no key is repeated across rows. -/
theorem period_key_unique_row (records : List RawRecord) (k : PeriodKey)
    (hk : k ∈ records.map rkey) :
    (preprocess_sbp_data records).countP
      (fun row => decide ((row.bank, row.year, row.month) = k)) = 1 := by
  unfold preprocess_sbp_data
  rw [List.countP_map]
  have hfun : ((fun row : Row => decide ((row.bank, row.year, row.month) = k)) ∘
      fun k' => mkRow records k') = fun k' => decide (k' = k) := by
    funext k'
    by_cases h : k' = k
    · subst h
      simp [mkRow]
    · have h2 : (k'.1, k'.2.1, k'.2.2) ≠ k := by
        intro hc
        exact h hc
      simp [mkRow, Function.comp, h, h2]
  rw [hfun]
  exact countP_eq_one_of_nodup (List.nodup_dedup _) (List.mem_dedup.mpr hk)

/-- C5 witness: on `exA` the key ("A", 2023, 1) occurs in the input and owns
exactly one output row. -/
theorem period_key_unique_row_witness :
    (preprocess_sbp_data exA).countP
      (fun row => decide ((row.bank, row.year, row.month) = (("A" : String), (2023 : Int), (1 : Int)))) = 1 :=
  period_key_unique_row exA ("A", 2023, 1) (by decide)

/-- C6: appending a raw record that shares the period key and the
(category, indicator) pair of an existing cell accumulates its value into the
cell's sum (duplicates are summed, not replaced), and the safe-get of a
(category, indicator) pair matched by no record of the input reads 0. -/
theorem pivot_sum_and_safe_get_zero :
    (∀ (records : List RawRecord) (r : RawRecord) (k : PeriodKey) (c i : String) (v : ℚ),
        rkey r = k → r.categoria = c → r.indicador = i → r.valor = some v →
        pivot_cell (records ++ [r]) k c i = some (get_col records k c i + v)) ∧
    (∀ (records : List RawRecord) (k : PeriodKey) (c i : String),
        (∀ r ∈ records, ¬(rkey r = k ∧ r.categoria = c ∧ r.indicador = i)) →
        get_col records k c i = 0) := by
  constructor
  · intro records r k c i v hk hc hi hv
    have hm : matchesCell k c i r = true := by
      simp [matchesCell, hk, hc, hi]
    have hfil : (records ++ [r]).filter (matchesCell k c i) =
        records.filter (matchesCell k c i) ++ [r] := by
      rw [List.filter_append]
      simp [hm]
    simp only [pivot_cell, get_col, hfil]
    have hmap : (records.filter (matchesCell k c i) ++ [r]).filterMap RawRecord.valor =
        (records.filter (matchesCell k c i)).filterMap RawRecord.valor ++ [v] := by
      rw [List.filterMap_append]
      simp [hv]
    rw [hmap]
    by_cases hF : (records.filter (matchesCell k c i)).isEmpty
    · rw [List.isEmpty_iff] at hF
      simp [hF]
    · have hne : ((records.filter (matchesCell k c i)) ++ [r]).isEmpty = false := by
        simp
      have hF' : (records.filter (matchesCell k c i)).isEmpty = false := by
        simp_all
      simp [hne, hF', List.sum_append]
  · intro records k c i hnone
    have hF : records.filter (matchesCell k c i) = [] := by
      rw [List.filter_eq_nil_iff]
      intro r hr
      have := hnone r hr
      simp only [matchesCell, Bool.and_eq_true, beq_iff_eq, rkey]
      intro hc'
      exact this ⟨by rw [rkey]; exact hc'.1.1, hc'.1.2, hc'.2⟩
    simp [get_col, pivot_cell, hF]

/-- C6 witness: appending a duplicate Capital record of value 5 to `exA` turns
the ("A", 2023, 1) Capital cell into its old safe-get value plus 5, and the
safe-get on the empty input reads 0. -/
theorem pivot_sum_and_safe_get_zero_witness :
    pivot_cell (exA ++ [⟨"A", "Patrimonio", "Capital", 2023, 1, some 5⟩]) ("A", 2023, 1)
        ("Patrimonio") ("Capital") =
      some (get_col exA ("A", 2023, 1) ("Patrimonio") ("Capital") + 5) ∧
    get_col [] ("A", 2023, 1) ("Patrimonio") ("Capital") = 0 :=
  ⟨pivot_sum_and_safe_get_zero.1 exA _ _ _ _ _ rfl rfl rfl rfl,
   pivot_sum_and_safe_get_zero.2 [] _ _ _ (by simp)⟩

/-- C8: on a row whose total assets and equity are both non-zero,
ROE = ROA × Leverage collapses to net income / equity. -/
theorem roe_eq_net_income_div_equity (records : List RawRecord) (row : Row)
    (hrow : row ∈ preprocess_sbp_data records)
    (hta : row.total_assets ≠ 0) (heq : row.equity ≠ 0) :
    row.roe = some (row.net_income / row.equity) := by
  obtain ⟨k, hk, rfl⟩ := mem_preprocess.mp hrow
  have hta' : total_assets records k ≠ 0 := hta
  have heq' : equity records k ≠ 0 := heq
  have h1 : roa records k = some (net_income records k / total_assets records k) := by
    rw [roa, if_neg hta']
  have h2 : leverage records k = some (total_assets records k / equity records k) := by
    rw [leverage, if_neg heq']
  show roe records k = some (net_income records k / equity records k)
  rw [roe, h1, h2]
  simp only [Option.some.injEq]
  field_simp

/-- C8 witness: on `exA`'s ("A", 2023, 1) row, ROE = 1/20 equals
net income 1 divided by equity 20. -/
theorem roe_eq_net_income_div_equity_witness :
    (mkRow exA ("A", 2023, 1)).roe =
      some ((mkRow exA ("A", 2023, 1)).net_income / (mkRow exA ("A", 2023, 1)).equity) :=
  roe_eq_net_income_div_equity exA _ exA_mem_A
    (by show total_assets exA ("A", 2023, 1) ≠ 0; rw [exA_total_assets_A]; norm_num)
    (by show equity exA ("A", 2023, 1) ≠ 0; rw [exA_equity_A]; norm_num)

/-- C9: a row with null ROE has null adjusted ROE as well — the undefinedness
of ROE propagates through the credit-quality adjustment, whatever the
adjustment's own denominator is. -/
theorem adjusted_roe_null_of_roe_null (records : List RawRecord) (row : Row)
    (hrow : row ∈ preprocess_sbp_data records) (h : row.roe = none) :
    row.adjusted_ROE = none := by
  obtain ⟨k, hk, rfl⟩ := mem_preprocess.mp hrow
  have h' : roe records k = none := h
  show adjusted_ROE records k = none
  simp only [adjusted_ROE]
  split_ifs with hd
  · rfl
  · rw [h']
    rfl

/-- C9 witness: `exC`'s ("W", 2024, 2) row has a non-zero adjusted-ROE
denominator but null ROE, and its adjusted ROE is null. -/
theorem adjusted_roe_null_of_roe_null_witness :
    (mkRow exC ("W", 2024, 2)).adjusted_ROE = none :=
  adjusted_roe_null_of_roe_null exC _ exC_mem_W exC_roe_W
